import Mathlib

/-!
Shallow embedding of `src/scraper/scraper.py` (ICO decision-notice scraper)
and proofs of its specified properties.

The program is a linear pipeline: a paginated search API client
(`get_data_from_json_api`), a result normalizer living inside that client
(comma-split of `filterItemMetaData`, `%d %B %Y` date parsing, decision-list
joining), a detail fetcher / persistence writer (`scrape_detail_page`) and an
orchestrator (`scrape_all_notices`).  Network and filesystem effects are made
explicit: HTTP results become `Except`/sum values supplied by an environment,
the filesystem becomes an association list from paths to file contents, and
raised exceptions become `Except.error`.
-/

namespace Scraper

/-! ### Python string primitives used by the scraper -/

/-- Python `str.isspace`-style whitespace recognizer restricted to the ASCII
whitespace characters (space, tab, newline, carriage return, vertical tab,
form feed), which is what `str.strip()` removes on the data this program
handles. -/
def pyIsSpace (c : Char) : Bool :=
  c = ' ' || c = '\t' || c = '\n' || c = '\r' || c = Char.ofNat 11 || c = Char.ofNat 12

/-- Python `s.strip()` on a character list: drop whitespace from both ends. -/
def pyStripL (cs : List Char) : List Char :=
  ((cs.dropWhile pyIsSpace).reverse.dropWhile pyIsSpace).reverse

/-- Python `s.strip()` on strings. -/
def pyStrip (s : String) : String :=
  ⟨pyStripL s.data⟩

/-- Python `s.split(sep, 1)` on a character list: the part before the first
occurrence of `sep`, and `some` of the remainder after it when `sep` occurs. -/
def splitFirst (sep : Char) : List Char → List Char × Option (List Char)
  | [] => ([], none)
  | c :: cs =>
    if c = sep then ([], some cs)
    else
      let r := splitFirst sep cs
      (c :: r.1, r.2)

/-! ### Result normalizer: `filterItemMetaData` (scraper.py lines 111-122) -/

/-- Embedding of scraper.py lines 112-122: from the raw `filterItemMetaData`
string compute `(date_str_raw, sector)`.  Defaults are `""` and `"Not found"`;
a non-empty string is split on the first comma only, the first part stripped
becomes the date-text candidate, and the second part (when the comma exists)
stripped becomes the sector. -/
def parseFilterMeta (filter_meta : String) : String × String :=
  if filter_meta = "" then ("", "Not found")
  else
    let parts := splitFirst ',' filter_meta.data
    let date_str_raw := pyStrip ⟨parts.1⟩
    match parts.2 with
    | none => (date_str_raw, "Not found")
    | some rest => (date_str_raw, pyStrip ⟨rest⟩)

/-! ### Result normalizer: `filterItemDecisions` (scraper.py lines 131-138) -/

/-- One raw entry of `filterItemDecisions`; the Python code reads
`dec_item.get('status', '')` and `dec_item.get('section', '')`, so an absent
key is the empty string here.  (`sect` stands for the source's `section`,
which is a Lean keyword.) -/
structure DecItem where
  status : String
  sect : String
deriving Repr, DecidableEq

/-- Embedding of the loop at scraper.py lines 132-137: accumulate
`f"{section}: {status}"` for every entry whose status and section are both
non-empty (Python truthiness on strings), in input order. -/
def decisionsLoop (acc : List String) : List DecItem → List String
  | [] => acc
  | d :: ds =>
    if d.status ≠ "" && d.sect ≠ "" then
      decisionsLoop (acc ++ [d.sect ++ ": " ++ d.status]) ds
    else
      decisionsLoop acc ds

/-- Embedding of scraper.py line 138:
`", ".join(decisions) if decisions else "Not found"`. -/
def decisionString (items : List DecItem) : String :=
  let decisions := decisionsLoop [] items
  if decisions ≠ [] then String.intercalate ", " decisions else "Not found"

/-- A `DecItem` is kept by the loop iff both fields are non-empty. -/
def validDecItem (d : DecItem) : Bool :=
  d.status ≠ "" && d.sect ≠ ""

/-- The fragment produced from a kept entry. -/
def decFragment (d : DecItem) : String :=
  d.sect ++ ": " ++ d.status

/-! ### Date parsing: `datetime.strptime(s, "%d %B %Y")` (scraper.py 124-129)

CPython's `_strptime` compiles `"%d %B %Y"` to the anchored regex
`(3[01]|[12]\d|0[1-9]|[1-9])\s+(january|...|december)\s+(\d\d\d\d)` matched
case-insensitively against the whole string, then validates the triple by
constructing a `datetime` (raising `ValueError` on an impossible calendar
date, which scraper.py catches and turns into `None`).  The embedding below
mirrors this on ASCII data: leading maximal digit / whitespace / letter runs,
token-shape checks matching the regex alternatives, and calendar validation
with the Gregorian leap-year rule. -/

/-- Longest prefix satisfying `p`, with the remainder (Python regex greedy
character-class run). -/
def spanP (p : Char → Bool) : List Char → List Char × List Char
  | [] => ([], [])
  | c :: cs =>
    if p c then
      let r := spanP p cs
      (c :: r.1, r.2)
    else ([], c :: cs)

/-- Numeric value of a decimal digit character. -/
def digitVal (c : Char) : Nat := c.toNat - '0'.toNat

/-- Value of a digit string, most significant first. -/
def natOfDigits (cs : List Char) : Nat :=
  cs.foldl (fun n c => 10 * n + digitVal c) 0

/-- The `%d` token of `_strptime`: regex `3[01]|[12]\d|0[1-9]|[1-9]`, i.e. a
one- or two-digit token whose value is 1..31. -/
def dayOfTok (cs : List Char) : Option Nat :=
  let v := natOfDigits cs
  if (cs.length = 1 || cs.length = 2) && 1 ≤ v && v ≤ 31 then some v else none

/-- Lower-cased full English month names, as in CPython's `LocaleTime.f_month`
for the C locale. -/
def monthNames : List String :=
  ["january", "february", "march", "april", "may", "june",
   "july", "august", "september", "october", "november", "december"]

/-- The `%B` token: the letter run must equal a full month name
case-insensitively; yields the 1-based month number. -/
def monthOfTok (cs : List Char) : Option Nat :=
  match monthNames.indexOf? (⟨cs.map Char.toLower⟩ : String) with
  | some i => some (i + 1)
  | none => none

/-- Gregorian leap-year rule (as in `datetime`). -/
def isLeapYear (y : Nat) : Bool :=
  (y % 4 = 0 && y % 100 ≠ 0) || y % 400 = 0

/-- Number of days in a month (as in `datetime`). -/
def daysInMonth (y m : Nat) : Nat :=
  if m = 2 then (if isLeapYear y then 29 else 28)
  else if m = 4 || m = 6 || m = 9 || m = 11 then 30
  else 31

/-- A `datetime.date` value. -/
structure PyDate where
  year : Nat
  month : Nat
  day : Nat
deriving Repr, DecidableEq

/-- The check performed by the `datetime.date` constructor (`MINYEAR = 1`,
`MAXYEAR = 9999`); a failure raises `ValueError`. -/
def validDate (y m d : Nat) : Bool :=
  1 ≤ y && y ≤ 9999 && 1 ≤ m && m ≤ 12 && 1 ≤ d && d ≤ daysInMonth y m

/-- Embedding of `datetime.strptime(s, "%d %B %Y").date()` with the caught
`ValueError` as `none`: day token, mandatory whitespace, month-name token,
mandatory whitespace, exactly four digits of year, end of string, then
calendar validation. -/
def strptime_dBY (cs : List Char) : Option PyDate :=
  let s1 := spanP Char.isDigit cs
  let s2 := spanP pyIsSpace s1.2
  let s3 := spanP Char.isAlpha s2.2
  let s4 := spanP pyIsSpace s3.2
  let s5 := spanP Char.isDigit s4.2
  if s2.1 ≠ [] ∧ s4.1 ≠ [] ∧ s5.1.length = 4 ∧ s5.2 = [] then
    match dayOfTok s1.1, monthOfTok s3.1 with
    | some d, some m =>
      let y := natOfDigits s5.1
      if validDate y m d then some ⟨y, m, d⟩ else none
    | _, _ => none
  else none

/-- Embedding of scraper.py lines 124-129: `parsed_date = None`; only a
non-empty `date_str_raw` is parsed, and a `ValueError` leaves `None`. -/
def parseDateField (date_str_raw : String) : Option PyDate :=
  if date_str_raw = "" then none
  else strptime_dBY date_str_raw.data

/-- Four decimal digits of a year `≤ 9999`, most significant first. -/
def year4Chars (y : Nat) : List Char :=
  [Nat.digitChar (y / 1000), Nat.digitChar (y / 100 % 10),
   Nat.digitChar (y / 10 % 10), Nat.digitChar (y % 10)]

/-- Two decimal digits, most significant first. -/
def pad2Chars (n : Nat) : List Char :=
  [Nat.digitChar (n / 10 % 10), Nat.digitChar (n % 10)]

/-- Embedding of `parsed_date.strftime('%Y-%m-%d')` (scraper.py line 190) for
four-digit years: zero-padded `YYYY-MM-DD`. -/
def formatISO (dt : PyDate) : String :=
  ⟨year4Chars dt.year ++ '-' :: pad2Chars dt.month ++ '-' :: pad2Chars dt.day⟩

/-- Capitalized month names as they appear in well-formed input. -/
def monthNameCap (m : Nat) : String :=
  (["January", "February", "March", "April", "May", "June", "July", "August",
    "September", "October", "November", "December"]).getD (m - 1) ""

/-- Decimal rendering of a day 1..31 without padding. -/
def dayChars (d : Nat) : List Char :=
  if d < 10 then [Nat.digitChar d]
  else [Nat.digitChar (d / 10), Nat.digitChar (d % 10)]

/-- A canonical well-formed `"D Month YYYY"` string. -/
def renderDate (d m y : Nat) : List Char :=
  dayChars d ++ ' ' :: ((monthNameCap m).data ++ ' ' :: year4Chars y)

/-! ### Search client: `get_data_from_json_api` (scraper.py lines 92-154)

The POST to the search API is modelled by an environment mapping each page
number to either a raised `requests` transport exception or an HTTP response
with a status code and a decoded-or-undecodable JSON body.  `requests.post`
raising, `raise_for_status()` raising `HTTPError` (a `RequestException`) and
`response.json()` raising `JSONDecodeError` are all caught by the function,
which then falls through to `return []`. -/

/-- One entry of `filterItemDecisions`; `none` models an absent key (the code
reads it with `dec_item.get(key, '')`). -/
structure RawDecision where
  status : Option String
  sect : Option String
deriving Repr, DecidableEq

/-- One entry of the `results` array; `none` models an absent key. -/
structure RawItem where
  title : Option String
  url : Option String
  description : Option String
  filterItemMetaData : Option String
  filterItemDecisions : Option (List RawDecision)
deriving Repr, DecidableEq

/-- A decoded JSON response body; `results` is read with
`json_data.get('results', [])`. -/
structure ApiJson where
  results : Option (List RawItem)
deriving Repr, DecidableEq

/-- Result of `requests.post` for one page: a raised transport exception, or
a response carrying an HTTP status code and a body that either decodes to
JSON (`some`) or raises `JSONDecodeError` (`none`). -/
inductive ApiResult where
  | transportError : ApiResult
  | response (status : Nat) (body : Option ApiJson) : ApiResult
deriving Repr, DecidableEq

/-- `Response.raise_for_status` raises `HTTPError` exactly for 4xx and 5xx
status codes. -/
def raisesForStatus (status : Nat) : Bool :=
  400 ≤ status && status ≤ 599

/-- The notice dictionary appended at scraper.py lines 140-147. -/
structure Notice where
  organisation : String
  date : Option PyDate
  sector : String
  decision : String
  abstract : String
  url : String
deriving Repr, DecidableEq

/-- The per-item normalization in the loop at scraper.py lines 106-147. -/
def normalizeItem (item : RawItem) : Notice :=
  let organisation := item.title.getD "Unknown Organisation"
  let detail_url_path := item.url.getD ""
  let abstract := item.description.getD ""
  let filter_meta := item.filterItemMetaData.getD ""
  let ds := parseFilterMeta filter_meta
  let parsed_date := parseDateField ds.1
  let decision_str := decisionString
    ((item.filterItemDecisions.getD []).map
      (fun r => ⟨r.status.getD "", r.sect.getD ""⟩))
  { organisation := organisation, date := parsed_date, sector := ds.2,
    decision := decision_str, abstract := abstract, url := detail_url_path }

/-- Embedding of `get_data_from_json_api` (scraper.py lines 92-154): the
response for `page_num` comes from the environment `api`; every caught
exception path returns `[]`. -/
def get_data_from_json_api (api : Nat → ApiResult) (page_num : Nat) :
    List Notice :=
  match api page_num with
  | .transportError => []
  | .response status body =>
    if raisesForStatus status then []
    else
      match body with
      | none => []
      | some json_data => (json_data.results.getD []).map normalizeItem

/-! ### Detail fetcher and persistence writer: `scrape_detail_page`
(scraper.py lines 157-208)

The detail-page GET (with its `raise_for_status`) either raises — modelled as
`Except.error`, which propagates to the orchestrator's per-record catch — or
yields a parsed page, modelled as the result of
`soup.find('further-reading')`: possibly a tag, possibly carrying the
`x-href` attribute.  The filesystem is an association list from paths to file
contents; the PDF GET is an environment function from URL to a transport
error or a response body.  The function returns the updated filesystem
together with the list of PDF URLs it attempted to download. -/

/-- Configuration constants (scraper.py lines 29-33). -/
def BASE_URL : String := "https://ico.org.uk"

/-- Output directory constant. -/
def DATA_DIR : String := "ico-decision-notice/data"

/-- First page of the standard run. -/
def START_PAGE : Nat := 1

/-- Page bound of the standard run ("Set manually as requested"). -/
def MAX_PAGES : Nat := 1

/-- Model of `urllib.parse.urljoin(base, rel)` for an origin-only base such
as `BASE_URL`: an empty relative URL yields the base itself, an absolute URL
replaces it, a scheme-relative URL keeps only the scheme, a root-relative
path and a plain relative path are appended to the origin. -/
def urljoin (base rel : String) : String :=
  if rel = "" then base
  else if "http://".data.isPrefixOf rel.data || "https://".data.isPrefixOf rel.data then rel
  else if "//".data.isPrefixOf rel.data then "https:" ++ rel
  else if "/".data.isPrefixOf rel.data then base ++ rel
  else base ++ "/" ++ rel

/-- `os.path.basename`: the part after the last slash. -/
def basename (s : String) : String :=
  ⟨(s.data.reverse.takeWhile (fun c => c ≠ '/')).reverse⟩

/-- The `<further-reading>` element as seen by the code: only its `x-href`
attribute matters (`none` models an absent attribute).  A found bs4 `Tag` is
truthy, so `if further_reading_tag and ...` reduces to the attribute check. -/
structure FRTag where
  xhref : Option String
deriving Repr, DecidableEq

/-- A fetched detail page, reduced to `soup.find('further-reading')`. -/
structure DetailPage where
  furtherReading : Option FRTag
deriving Repr, DecidableEq

/-- Environment of one `scrape_detail_page` call: the detail-page GET
outcome (`error` = `requests.get`/`raise_for_status` raised) and the PDF GET
outcome per URL (`error` = `requests.exceptions.RequestException` raised). -/
structure DetailEnv where
  page : Except Unit DetailPage
  pdfGet : String → Except Unit String

/-- Overwriting file write into the association-list filesystem. -/
def fsWrite (fs : List (String × String)) (path content : String) :
    List (String × String) :=
  match fs with
  | [] => [(path, content)]
  | (p, c) :: rest =>
    if p = path then (p, content) :: rest else (p, c) :: fsWrite rest path content

/-- File lookup in the association-list filesystem. -/
def fsGet (fs : List (String × String)) (path : String) : Option String :=
  match fs with
  | [] => none
  | (p, c) :: rest => if p = path then some c else fsGet rest path

/-- Lines 174-181: extract the PDF URL and filename from the detail page.
Defaults are the sentinel "Not found" and "document.pdf"; a present tag with
a present `x-href` resolves it against `BASE_URL`, and a non-empty `x-href`
additionally derives the filename as its basename. -/
def fetchPdfLink (page : DetailPage) : String × String :=
  match page.furtherReading with
  | none => ("Not found", "document.pdf")
  | some tag =>
    match tag.xhref with
    | none => ("Not found", "document.pdf")
    | some relative_pdf_url =>
      (urljoin BASE_URL relative_pdf_url,
       if relative_pdf_url ≠ "" then basename relative_pdf_url else "document.pdf")

/-- The per-case directory `<DATA_DIR>/case-<counter>` (line 184). -/
def caseDir (case_counter : Nat) : String :=
  DATA_DIR ++ "/case-" ++ toString case_counter

/-- Line 190: `parsed_date.strftime('%Y-%m-%d') if parsed_date else 'N/A'`. -/
def dateField (d : Option PyDate) : String :=
  match d with
  | some dt => formatISO dt
  | none => "N/A"

/-- The metadata file content written at lines 188-194: six `f.write` calls,
each one field line terminated by a newline, with the date rendered by
`strftime('%Y-%m-%d')` or the literal "N/A". -/
def metadataContent (n : Notice) (pdf_url : String) : String :=
  "Organisation: " ++ n.organisation ++ "\n" ++
  ("Date: " ++ dateField n.date ++ "\n" ++
  ("Sector: " ++ n.sector ++ "\n" ++
  ("Decision: " ++ n.decision ++ "\n" ++
  ("Abstract: " ++ n.abstract ++ "\n" ++
  ("PDF URL: " ++ pdf_url ++ "\n")))))

/-- Embedding of `scrape_detail_page` (lines 157-208): fetch the detail page
(a raised exception propagates), extract the PDF link, write the metadata
file, and when the PDF URL is not the sentinel attempt the download, catching
a transport failure.  Returns the new filesystem and the attempted PDF URLs. -/
def scrape_detail_page (env : DetailEnv) (case_counter : Nat) (notice : Notice)
    (fs : List (String × String)) :
    Except Unit (List (String × String) × List String) :=
  match env.page with
  | .error e => .error e
  | .ok page =>
    let pf := fetchPdfLink page
    let case_dir := caseDir case_counter
    let metadata_path := case_dir ++ "/metadata.txt"
    let fs1 := fsWrite fs metadata_path (metadataContent notice pf.1)
    if pf.1 ≠ "Not found" then
      let pdf_path := case_dir ++ "/" ++ pf.2
      match env.pdfGet pf.1 with
      | .ok body => .ok (fsWrite fs1 pdf_path body, [pf.1])
      | .error _ => .ok (fs1, [pf.1])
    else .ok (fs1, [])

/-- Decomposition of a character list at every occurrence of `sep` (the line
structure of a text file when `sep` is the newline): a file ending in a
newline yields its lines followed by one empty trailing segment. -/
def splitOnChar (sep : Char) : List Char → List (List Char)
  | [] => [[]]
  | c :: cs =>
    if c = sep then [] :: splitOnChar sep cs
    else
      match splitOnChar sep cs with
      | [] => [[c]]
      | t :: ts => (c :: t) :: ts

/-! ### Orchestrator: `scrape_all_notices` (scraper.py lines 54-89)

The run-wide state is the filesystem, the case counter (starting at 1), the
pages for which the search API has been called, and the successfully
processed records paired with the counter value they were processed under.
The network is an environment: the search API response per page and the
detail environment per detail URL.  The per-record `try/except` at lines
81-86 becomes: a `scrape_detail_page` error leaves the state unchanged, a
success commits the new filesystem and increments the counter. -/

/-- The whole network environment of a run. -/
structure WorldEnv where
  api : Nat → ApiResult
  detail : String → DetailEnv

/-- Orchestrator state: filesystem, `case_counter`, API pages queried, and
`(case number, notice)` for each successfully processed record, in order. -/
structure RunState where
  fs : List (String × String)
  counter : Nat
  queriedPages : List Nat
  successes : List (Nat × Notice)
deriving Repr

/-- Lines 78-86: one record of a page.  The detail URL is resolved against
`BASE_URL`; an exception from `scrape_detail_page` is caught and leaves the
counter unchanged; success increments `case_counter` by one. -/
def processRecord (env : WorldEnv) (st : RunState) (n : Notice) : RunState :=
  let detail_url := urljoin BASE_URL n.url
  match scrape_detail_page (env.detail detail_url) st.counter n st.fs with
  | .ok r =>
    { st with fs := r.1, counter := st.counter + 1,
              successes := st.successes ++ [(st.counter, n)] }
  | .error _ => st

/-- The inner `for notice_data in notices_data_from_api` loop. -/
def processPage (env : WorldEnv) (st : RunState) (notices : List Notice) :
    RunState :=
  notices.foldl (processRecord env) st

/-- Lines 65-89: iterate over the remaining page numbers.  An empty result
list moves on when the page is the configured start page and breaks out of
the loop on any later page; a non-empty list is processed record by record. -/
def pageLoop (env : WorldEnv) (startPage : Nat) (st : RunState) :
    List Nat → RunState
  | [] => st
  | page_num :: rest =>
    let st1 := { st with queriedPages := st.queriedPages ++ [page_num] }
    let notices := get_data_from_json_api env.api page_num
    if notices = [] then
      if page_num > startPage then st1
      else pageLoop env startPage st1 rest
    else pageLoop env startPage (processPage env st1 notices) rest

/-- `range(START_PAGE, total_pages + 1)`. -/
def pageRange (startPage totalPages : Nat) : List Nat :=
  List.range' startPage (totalPages + 1 - startPage)

/-- Embedding of `scrape_all_notices`, parametric in the configured start
page and page bound: `case_counter` starts at 1 and the loop runs over
`range(startPage, totalPages + 1)`. -/
def scrape_all_notices (env : WorldEnv) (startPage totalPages : Nat) :
    RunState :=
  pageLoop env startPage ⟨[], 1, [], []⟩ (pageRange startPage totalPages)

/-- A small concrete environment: page 1 returns one bare record, later
pages are empty; every detail page fetch succeeds with no further-reading
tag. -/
def demoEnv : WorldEnv :=
  { api := fun p =>
      if p = 1 then
        .response 200 (some ⟨some [⟨some "Org A", some "/case-a", some "Abs",
          some "5 December 2025, Education", some []⟩]⟩)
      else .response 200 (some ⟨some []⟩),
    detail := fun _ => ⟨.ok ⟨none⟩, fun _ => .error ()⟩ }

/-- A concrete environment whose search API is empty on every page. -/
def emptyEnv : WorldEnv :=
  { api := fun _ => .response 200 (some ⟨some []⟩),
    detail := fun _ => ⟨.ok ⟨none⟩, fun _ => .error ()⟩ }

/-! ### Helper lemmas -/

theorem splitFirst_no_sep (sep : Char) (cs : List Char) (h : sep ∉ cs) :
    splitFirst sep cs = (cs, none) := by
  induction cs with
  | nil => rfl
  | cons c cs ih =>
    simp only [splitFirst]
    rw [if_neg, ih]
    · exact fun hmem => h (List.mem_cons_of_mem _ hmem)
    · intro hc; exact h (hc ▸ List.mem_cons_self c cs)

theorem splitFirst_append (sep : Char) (a b : List Char) (h : sep ∉ a) :
    splitFirst sep (a ++ sep :: b) = (a, some b) := by
  induction a with
  | nil => simp [splitFirst]
  | cons c cs ih =>
    simp only [List.cons_append, splitFirst, List.append_eq]
    rw [if_neg, ih]
    · exact fun hmem => h (List.mem_cons_of_mem _ hmem)
    · intro hc; exact h (hc ▸ List.mem_cons_self c cs)

theorem decisionsLoop_acc (acc : List String) (items : List DecItem) :
    decisionsLoop acc items = acc ++ decisionsLoop [] items := by
  induction items generalizing acc with
  | nil => simp [decisionsLoop]
  | cons d ds ih =>
    by_cases h : (d.status ≠ "" && d.sect ≠ "") = true
    · simp only [decisionsLoop, if_pos h, List.nil_append]
      rw [ih (acc ++ [d.sect ++ ": " ++ d.status]), ih [d.sect ++ ": " ++ d.status]]
      simp
    · simp only [decisionsLoop, if_neg h]
      exact ih acc

theorem decisionsLoop_eq_filterMap (items : List DecItem) :
    decisionsLoop [] items = (items.filter validDecItem).map decFragment := by
  induction items with
  | nil => rfl
  | cons d ds ih =>
    by_cases h : (d.status ≠ "" && d.sect ≠ "") = true
    · simp only [decisionsLoop, if_pos h]
      rw [decisionsLoop_acc]
      have hv : validDecItem d = true := h
      simp [List.filter_cons, hv, ih, decFragment]
    · simp only [decisionsLoop, if_neg h]
      have hv : validDecItem d = false := by
        simp only [validDecItem]
        exact Bool.not_eq_true _ ▸ (by simpa using h)
      simp [List.filter_cons, hv, ih]

/-! ### Lemmas about the date parser -/

theorem spanP_split (p : Char → Bool) (xs ys : List Char)
    (h1 : ∀ x ∈ xs, p x = true)
    (h2 : ∀ c, ys.head? = some c → p c = false) :
    spanP p (xs ++ ys) = (xs, ys) := by
  induction xs with
  | nil =>
    cases ys with
    | nil => rfl
    | cons c cs => simp [spanP, h2 c rfl]
  | cons c cs ih =>
    have hc : p c = true := h1 c (List.mem_cons_self c cs)
    simp [spanP, hc, ih (fun x hx => h1 x (List.mem_cons_of_mem _ hx))]

theorem digitVal_digitChar : ∀ n < 10, digitVal (Nat.digitChar n) = n := by decide

theorem digitChar_isDigit : ∀ n < 10, (Nat.digitChar n).isDigit = true := by decide

theorem year4Chars_digits (y : Nat) (hy : y ≤ 9999) :
    ∀ c ∈ year4Chars y, c.isDigit = true := by
  intro c hc
  simp only [year4Chars, List.mem_cons, List.not_mem_nil, or_false] at hc
  rcases hc with rfl | rfl | rfl | rfl
  · exact digitChar_isDigit _ (by omega)
  · exact digitChar_isDigit _ (by omega)
  · exact digitChar_isDigit _ (by omega)
  · exact digitChar_isDigit _ (by omega)

theorem natOfDigits_year4 (y : Nat) (hy : y ≤ 9999) :
    natOfDigits (year4Chars y) = y := by
  have h1 := digitVal_digitChar (y / 1000) (by omega)
  have h2 := digitVal_digitChar (y / 100 % 10) (by omega)
  have h3 := digitVal_digitChar (y / 10 % 10) (by omega)
  have h4 := digitVal_digitChar (y % 10) (by omega)
  simp only [natOfDigits, year4Chars, List.foldl]
  rw [h1, h2, h3, h4]
  omega

theorem isDigit_not_space (c : Char) (h : c.isDigit = true) : pyIsSpace c = false := by
  by_contra hb
  have hs : pyIsSpace c = true := by simpa using hb
  simp only [pyIsSpace, Bool.or_eq_true, decide_eq_true_eq] at hs
  rcases hs with ((((rfl | rfl) | rfl) | rfl) | rfl) | rfl <;> exact absurd h (by decide)

theorem dayChars_digits : ∀ d < 32, ∀ c ∈ dayChars d, c.isDigit = true := by decide

theorem dayOfTok_dayChars : ∀ d < 32, 1 ≤ d → dayOfTok (dayChars d) = some d := by
  decide

theorem monthOfTok_cap :
    ∀ m < 13, 1 ≤ m →
      monthOfTok (monthNameCap m).data = some m ∧
      (monthNameCap m).data ≠ [] ∧
      ∀ c ∈ (monthNameCap m).data,
        c.isAlpha = true ∧ c.isDigit = false ∧ pyIsSpace c = false := by
  decide

/-- Computation of the embedded `strptime` on a string made of a digit run, a
single space, a letter run and a single space before a four-digit year. -/
theorem strptime_tokens (dTok mTok yTok : List Char)
    (hd : ∀ c ∈ dTok, c.isDigit = true)
    (hm : ∀ c ∈ mTok, c.isAlpha = true ∧ c.isDigit = false ∧ pyIsSpace c = false)
    (hm0 : mTok ≠ [])
    (hy : ∀ c ∈ yTok, c.isDigit = true)
    (hy4 : yTok.length = 4) :
    strptime_dBY (dTok ++ ' ' :: (mTok ++ ' ' :: yTok)) =
      match dayOfTok dTok, monthOfTok mTok with
      | some d, some m =>
        if validDate (natOfDigits yTok) m d then
          some ⟨natOfDigits yTok, m, d⟩
        else none
      | _, _ => none := by
  obtain ⟨mh, mrest, rfl⟩ : ∃ h t, mTok = h :: t := by
    cases mTok with
    | nil => exact absurd rfl hm0
    | cons h t => exact ⟨h, t, rfl⟩
  have e1 : spanP Char.isDigit (dTok ++ ' ' :: ((mh :: mrest) ++ ' ' :: yTok)) =
      (dTok, ' ' :: ((mh :: mrest) ++ ' ' :: yTok)) := by
    apply spanP_split _ _ _ hd
    intro c hc
    simp only [List.head?] at hc
    cases hc
    decide
  have e2 : spanP pyIsSpace (' ' :: ((mh :: mrest) ++ ' ' :: yTok)) =
      ([' '], (mh :: mrest) ++ ' ' :: yTok) := by
    have := spanP_split pyIsSpace [' '] ((mh :: mrest) ++ ' ' :: yTok)
      (by intro x hx; simp at hx; subst hx; decide)
      (by
        intro c hc
        simp only [List.cons_append, List.head?] at hc
        cases hc
        exact (hm mh (List.mem_cons_self _ _)).2.2)
    simpa using this
  have e3 : spanP Char.isAlpha ((mh :: mrest) ++ ' ' :: yTok) =
      (mh :: mrest, ' ' :: yTok) := by
    apply spanP_split _ _ _ (fun c hc => (hm c hc).1)
    intro c hc
    simp only [List.head?] at hc
    cases hc
    decide
  have e4 : spanP pyIsSpace (' ' :: yTok) = ([' '], yTok) := by
    have := spanP_split pyIsSpace [' '] yTok
      (by intro x hx; simp at hx; subst hx; decide)
      (by
        intro c hc
        cases yTok with
        | nil => simp at hc
        | cons a l =>
          simp only [List.head?] at hc
          cases hc
          exact isDigit_not_space _ (hy _ (List.mem_cons_self _ _)))
    simpa using this
  have e5 : spanP Char.isDigit yTok = (yTok, []) := by
    have := spanP_split Char.isDigit yTok [] hy (by intro c hc; simp at hc)
    simpa using this
  simp only [strptime_dBY, e1, e2, e3, e4, e5, hy4]
  simp

theorem daysInMonth_le (y m : Nat) : daysInMonth y m ≤ 31 := by
  unfold daysInMonth
  split
  · split <;> omega
  · split <;> omega

/-- Whenever the embedded `strptime` succeeds, the resulting triple passed the
`datetime.date` constructor check. -/
theorem strptime_sound (cs : List Char) (dt : PyDate)
    (h : strptime_dBY cs = some dt) :
    validDate dt.year dt.month dt.day = true := by
  simp only [strptime_dBY] at h
  split at h
  · split at h
    · split at h
      · cases h
        assumption
      · exact absurd h (by simp)
    all_goals exact absurd h (by simp)
  · exact absurd h (by simp)

/-! ### Lemmas about file lines and the filesystem -/

theorem splitOnChar_line (sep : Char) (a rest : List Char) (h : sep ∉ a) :
    splitOnChar sep (a ++ sep :: rest) = a :: splitOnChar sep rest := by
  induction a with
  | nil => simp [splitOnChar]
  | cons c cs ih =>
    have hc : ¬(c = sep) := fun e => h (e ▸ List.mem_cons_self c cs)
    simp only [List.cons_append, List.append_eq, splitOnChar, if_neg hc,
      ih (fun hm => h (List.mem_cons_of_mem _ hm))]

theorem splitOnChar_two (sep : Char) (p v rest : List Char)
    (hp : sep ∉ p) (hv : sep ∉ v) :
    splitOnChar sep (p ++ (v ++ sep :: rest)) = (p ++ v) :: splitOnChar sep rest := by
  rw [← List.append_assoc]
  refine splitOnChar_line sep (p ++ v) rest ?_
  intro hm
  rcases List.mem_append.mp hm with h | h
  · exact hp h
  · exact hv h

theorem digitChar_ne_newline (n : Nat) : Nat.digitChar n ≠ '\n' := by
  rcases Nat.lt_or_ge n 16 with h | h
  · interval_cases n <;> decide
  · unfold Nat.digitChar
    rw [if_neg (by omega : ¬n = 0), if_neg (by omega : ¬n = 1),
      if_neg (by omega : ¬n = 2), if_neg (by omega : ¬n = 3),
      if_neg (by omega : ¬n = 4), if_neg (by omega : ¬n = 5),
      if_neg (by omega : ¬n = 6), if_neg (by omega : ¬n = 7),
      if_neg (by omega : ¬n = 8), if_neg (by omega : ¬n = 9),
      if_neg (by omega : ¬n = 10), if_neg (by omega : ¬n = 11),
      if_neg (by omega : ¬n = 12), if_neg (by omega : ¬n = 13),
      if_neg (by omega : ¬n = 14), if_neg (by omega : ¬n = 15)]
    decide

theorem newline_not_mem_pad2 (k : Nat) : '\n' ∉ pad2Chars k := by
  intro hm
  simp only [pad2Chars, List.mem_cons, List.not_mem_nil, or_false] at hm
  rcases hm with h | h <;> exact digitChar_ne_newline _ h.symm

theorem newline_not_mem_year4 (k : Nat) : '\n' ∉ year4Chars k := by
  intro hm
  simp only [year4Chars, List.mem_cons, List.not_mem_nil, or_false] at hm
  rcases hm with h | h | h | h <;> exact digitChar_ne_newline _ h.symm

theorem newline_not_mem_dateField (d : Option PyDate) :
    '\n' ∉ (dateField d).data := by
  cases d with
  | none => decide
  | some dt =>
    intro hm
    have hm' : '\n' ∈ year4Chars dt.year ++
        '-' :: (pad2Chars dt.month ++ '-' :: pad2Chars dt.day) := hm
    rcases List.mem_append.mp hm' with h | h
    · exact newline_not_mem_year4 _ h
    · rcases List.mem_cons.mp h with h | h
      · exact absurd h (by decide)
      · rcases List.mem_append.mp h with h | h
        · exact newline_not_mem_pad2 _ h
        · rcases List.mem_cons.mp h with h | h
          · exact absurd h (by decide)
          · exact newline_not_mem_pad2 _ h

theorem newline_not_mem_append (a b : List Char)
    (ha : '\n' ∉ a) (hb : '\n' ∉ b) : '\n' ∉ a ++ b := fun hm =>
  (List.mem_append.mp hm).elim (fun h => ha h) (fun h => hb h)

theorem fsGet_fsWrite_self (fs : List (String × String)) (p c : String) :
    fsGet (fsWrite fs p c) p = some c := by
  induction fs with
  | nil => simp [fsWrite, fsGet]
  | cons hd tl ih =>
    obtain ⟨q, v⟩ := hd
    by_cases h : q = p
    · subst h
      simp [fsWrite, fsGet]
    · simp [fsWrite, fsGet, h, ih]

theorem fsGet_fsWrite_other (fs : List (String × String)) (p c q : String)
    (h : q ≠ p) : fsGet (fsWrite fs p c) q = fsGet fs q := by
  induction fs with
  | nil =>
    simp [fsWrite, fsGet]
    exact fun e => h e.symm
  | cons hd tl ih =>
    obtain ⟨a, v⟩ := hd
    by_cases ha : a = p
    · subst ha
      have hne : ¬a = q := fun e => h e.symm
      simp [fsWrite, fsGet, hne]
    · simp [fsWrite, fsGet, ha, ih]

theorem fsGet_fsWrite_ne_none (fs : List (String × String)) (p c q : String)
    (h : fsGet fs q ≠ none) : fsGet (fsWrite fs p c) q ≠ none := by
  by_cases hq : q = p
  · subst hq
    rw [fsGet_fsWrite_self]
    simp
  · rw [fsGet_fsWrite_other fs p c q hq]
    exact h

/-! ### Lemmas about the orchestrator -/

/-- A successful `scrape_detail_page` leaves the case's metadata file on disk
and removes no existing file. -/
theorem scrape_ok_fs (env : DetailEnv) (cc : Nat) (n : Notice)
    (fs : List (String × String)) (r : List (String × String) × List String)
    (h : scrape_detail_page env cc n fs = .ok r) :
    fsGet r.1 (caseDir cc ++ "/metadata.txt") ≠ none ∧
    (∀ q, fsGet fs q ≠ none → fsGet r.1 q ≠ none) := by
  simp only [scrape_detail_page] at h
  split at h
  · exact absurd h (by simp)
  · split at h
    · split at h
      · cases h
        constructor
        · exact fsGet_fsWrite_ne_none _ _ _ _ (by rw [fsGet_fsWrite_self]; simp)
        · intro q hq
          exact fsGet_fsWrite_ne_none _ _ _ _ (fsGet_fsWrite_ne_none _ _ _ _ hq)
      · cases h
        constructor
        · rw [fsGet_fsWrite_self]
          simp
        · intro q hq
          exact fsGet_fsWrite_ne_none _ _ _ _ hq
    · cases h
      constructor
      · rw [fsGet_fsWrite_self]
        simp
      · intro q hq
        exact fsGet_fsWrite_ne_none _ _ _ _ hq

/-- One record either leaves the state unchanged (caught exception) or
commits: counter incremented once, the pair `(old counter, record)` appended
to the successes, the metadata of the new case on disk, old files kept, and
the queried pages untouched. -/
theorem processRecord_cases (env : WorldEnv) (st : RunState) (n : Notice) :
    processRecord env st n = st ∨
    ∃ fs',
      processRecord env st n =
        { st with fs := fs', counter := st.counter + 1,
                  successes := st.successes ++ [(st.counter, n)] } ∧
      fsGet fs' (caseDir st.counter ++ "/metadata.txt") ≠ none ∧
      (∀ q, fsGet st.fs q ≠ none → fsGet fs' q ≠ none) := by
  simp only [processRecord]
  cases hm : scrape_detail_page (env.detail (urljoin BASE_URL n.url)) st.counter n st.fs with
  | error e => left; rfl
  | ok r =>
    right
    obtain ⟨hmeta, hkeep⟩ := scrape_ok_fs _ _ _ _ _ hm
    exact ⟨r.1, rfl, hmeta, hkeep⟩

/-- All invariants of a run state that the claims need: cases on disk for
every recorded success. -/
def casesOnDisk (st : RunState) : Prop :=
  ∀ kn ∈ st.successes, fsGet st.fs (caseDir kn.1 ++ "/metadata.txt") ≠ none

theorem range'_append_one (s m n : Nat) :
    List.range' s m ++ List.range' (s + m) n = List.range' s (m + n) := by
  induction m generalizing s with
  | zero => simp
  | succ m ih =>
    have h1 : List.range' s (m + 1) = s :: List.range' (s + 1) m := List.range'_succ s m 1
    have h2 : List.range' s (m + 1 + n) = s :: List.range' (s + 1) (m + n) := by
      have := List.range'_succ s (m + n) 1
      simpa [Nat.add_assoc, Nat.add_comm, Nat.add_left_comm] using this
    rw [h1, h2, List.cons_append,
      show s + (m + 1) = s + 1 + m by omega, ih (s + 1)]

/-- Folding one page's records: the successes grow by a block numbered
consecutively from the incoming counter, the counter advances by the block
length, the queried pages are untouched, and the cases-on-disk invariant is
preserved. -/
theorem processPage_spec (env : WorldEnv) (notices : List Notice) :
    ∀ st : RunState, ∃ Δ : List (Nat × Notice),
      (processPage env st notices).successes = st.successes ++ Δ ∧
      (processPage env st notices).counter = st.counter + Δ.length ∧
      (processPage env st notices).queriedPages = st.queriedPages ∧
      Δ.map Prod.fst = List.range' st.counter Δ.length ∧
      (casesOnDisk st → casesOnDisk (processPage env st notices)) := by
  induction notices with
  | nil =>
    intro st
    exact ⟨[], by simp [processPage], by simp [processPage], by simp [processPage],
      by simp, fun h => by simpa [processPage] using h⟩
  | cons n ns ih =>
    intro st
    have hstep : processPage env st (n :: ns) =
        processPage env (processRecord env st n) ns := rfl
    rcases processRecord_cases env st n with heq | ⟨fs', heq, hmeta, hkeep⟩
    · obtain ⟨Δ, h1, h2, h3, h4, h5⟩ := ih st
      exact ⟨Δ, by rw [hstep, heq]; exact h1, by rw [hstep, heq]; exact h2,
        by rw [hstep, heq]; exact h3, h4, by rw [hstep, heq]; exact h5⟩
    · set st' : RunState :=
        { st with fs := fs', counter := st.counter + 1,
                  successes := st.successes ++ [(st.counter, n)] } with hst'
      obtain ⟨Δ, h1, h2, h3, h4, h5⟩ := ih st'
      refine ⟨(st.counter, n) :: Δ, ?_, ?_, ?_, ?_, ?_⟩
      · rw [hstep, heq, h1]
        simp
      · rw [hstep, heq, h2]
        simp [hst']
        omega
      · rw [hstep, heq, h3]
      · have : Δ.map Prod.fst = List.range' (st.counter + 1) Δ.length := h4
        simp [List.range'_succ, this]
      · intro hdisk
        rw [hstep, heq]
        apply h5
        intro kn hkn
        rcases List.mem_append.mp hkn with hk | hk
        · exact hkeep _ (hdisk kn hk)
        · have : kn = (st.counter, n) := by simpa using hk
          subst this
          exact hmeta

theorem processPage_queried (env : WorldEnv) (notices : List Notice)
    (st : RunState) :
    (processPage env st notices).queriedPages = st.queriedPages := by
  obtain ⟨Δ, _, _, h3, _, _⟩ := processPage_spec env notices st
  exact h3

/-- The page loop: successes grow by a block numbered consecutively from the
incoming counter, the counter advances by the block length, and the
cases-on-disk invariant is preserved. -/
theorem pageLoop_spec (env : WorldEnv) (sp : Nat) :
    ∀ (ps : List Nat) (st : RunState), ∃ Δ : List (Nat × Notice),
      (pageLoop env sp st ps).successes = st.successes ++ Δ ∧
      (pageLoop env sp st ps).counter = st.counter + Δ.length ∧
      Δ.map Prod.fst = List.range' st.counter Δ.length ∧
      (casesOnDisk st → casesOnDisk (pageLoop env sp st ps)) := by
  intro ps
  induction ps with
  | nil =>
    intro st
    exact ⟨[], by simp [pageLoop], by simp [pageLoop], by simp,
      fun h => by simpa [pageLoop] using h⟩
  | cons p rest ih =>
    intro st
    simp only [pageLoop]
    by_cases hn : get_data_from_json_api env.api p = []
    · rw [if_pos hn]
      by_cases hgt : p > sp
      · rw [if_pos hgt]
        exact ⟨[], by simp, by simp, by simp, fun h => h⟩
      · rw [if_neg hgt]
        obtain ⟨Δ, h1, h2, h3, h4⟩ :=
          ih { st with queriedPages := st.queriedPages ++ [p] }
        exact ⟨Δ, h1, h2, h3, fun h => h4 h⟩
    · rw [if_neg hn]
      obtain ⟨Δ1, p1, p2, p3, p4, p5⟩ := processPage_spec env
        (get_data_from_json_api env.api p)
        { st with queriedPages := st.queriedPages ++ [p] }
      obtain ⟨Δ2, q1, q2, q3, q4⟩ := ih (processPage env
        { st with queriedPages := st.queriedPages ++ [p] }
        (get_data_from_json_api env.api p))
      refine ⟨Δ1 ++ Δ2, ?_, ?_, ?_, ?_⟩
      · rw [q1, p1, List.append_assoc]
      · rw [q2, p2, List.length_append]
        dsimp only
        omega
      · rw [List.map_append, List.length_append,
          ← range'_append_one st.counter Δ1.length Δ2.length]
        have q3' := q3
        rw [p2] at q3'
        rw [p4, q3']
      · intro h
        exact q4 (p5 h)

theorem pageLoop_queried_mono (env : WorldEnv) (sp : Nat) :
    ∀ (ps : List Nat) (st : RunState), ∃ Δq : List Nat,
      (pageLoop env sp st ps).queriedPages = st.queriedPages ++ Δq := by
  intro ps
  induction ps with
  | nil =>
    intro st
    exact ⟨[], by simp [pageLoop]⟩
  | cons p rest ih =>
    intro st
    simp only [pageLoop]
    by_cases hn : get_data_from_json_api env.api p = []
    · rw [if_pos hn]
      by_cases hgt : p > sp
      · rw [if_pos hgt]
        exact ⟨[p], rfl⟩
      · rw [if_neg hgt]
        obtain ⟨Δq, h⟩ := ih { st with queriedPages := st.queriedPages ++ [p] }
        exact ⟨[p] ++ Δq, by rw [h, List.append_assoc]⟩
    · rw [if_neg hn]
      obtain ⟨Δq, h⟩ := ih (processPage env
        { st with queriedPages := st.queriedPages ++ [p] }
        (get_data_from_json_api env.api p))
      refine ⟨[p] ++ Δq, ?_⟩
      rw [h, processPage_queried, List.append_assoc]

theorem mem_pageLoop_queried (env : WorldEnv) (sp : Nat) (ps : List Nat)
    (st : RunState) (q : Nat) (hq : q ∈ st.queriedPages) :
    q ∈ (pageLoop env sp st ps).queriedPages := by
  obtain ⟨Δq, h⟩ := pageLoop_queried_mono env sp ps st
  rw [h]
  exact List.mem_append.mpr (Or.inl hq)

theorem pageLoop_queries_head (env : WorldEnv) (sp : Nat) (st : RunState)
    (p : Nat) (rest : List Nat) :
    p ∈ (pageLoop env sp st (p :: rest)).queriedPages := by
  simp only [pageLoop]
  by_cases hn : get_data_from_json_api env.api p = []
  · rw [if_pos hn]
    by_cases hgt : p > sp
    · rw [if_pos hgt]
      simp
    · rw [if_neg hgt]
      obtain ⟨Δq, h⟩ := pageLoop_queried_mono env sp rest
        { st with queriedPages := st.queriedPages ++ [p] }
      rw [h]
      simp
  · rw [if_neg hn]
    obtain ⟨Δq, h⟩ := pageLoop_queried_mono env sp rest (processPage env
      { st with queriedPages := st.queriedPages ++ [p] }
      (get_data_from_json_api env.api p))
    rw [h, processPage_queried]
    simp

/-- Once the loop meets an empty page strictly beyond the start page, no page
beyond it is ever queried. -/
theorem pageLoop_stops (env : WorldEnv) (sp p : Nat)
    (hp : sp < p) (hempty : get_data_from_json_api env.api p = []) :
    ∀ (n a : Nat) (st : RunState), a ≤ p →
      (∀ q, p < q → q ∉ st.queriedPages) →
      ∀ q, p < q → q ∉ (pageLoop env sp st (List.range' a n)).queriedPages := by
  intro n
  induction n with
  | zero =>
    intro a st _ hst q hq
    simpa [pageLoop] using hst q hq
  | succ n ih =>
    intro a st ha hst q hq
    rw [List.range'_succ]
    simp only [pageLoop]
    have hst1 : ∀ r, p < r →
        r ∉ (st.queriedPages ++ [a] : List Nat) := by
      intro r hr hmem
      rcases List.mem_append.mp hmem with h | h
      · exact hst r hr h
      · have : r = a := by simpa using h
        omega
    by_cases hn : get_data_from_json_api env.api a = []
    · rw [if_pos hn]
      by_cases hgt : a > sp
      · rw [if_pos hgt]
        exact hst1 q hq
      · rw [if_neg hgt]
        exact ih (a + 1) { st with queriedPages := st.queriedPages ++ [a] }
          (by omega) hst1 q hq
    · rw [if_neg hn]
      have hap : a ≠ p := fun e => hn (e ▸ hempty)
      have h2 : ∀ r, p < r →
          r ∉ (processPage env
            { st with queriedPages := st.queriedPages ++ [a] }
            (get_data_from_json_api env.api a)).queriedPages := by
        intro r hr
        rw [processPage_queried]
        exact hst1 r hr
      exact ih (a + 1) (processPage env
          { st with queriedPages := st.queriedPages ++ [a] }
          (get_data_from_json_api env.api a))
        (by omega) h2 q hq

/-! ### Claim theorems C7 and C8 -/

/-- C7: for every non-empty combined-metadata string the normalizer splits on
the first comma only: the first segment, trimmed, is the date-text candidate
and the second segment, trimmed, is the sector; with no comma the sector is
the sentinel "Not found", as it also is for the empty combined field. -/
theorem C7_parseFilterMeta :
    (∀ a b : List Char, ',' ∉ a →
      parseFilterMeta ⟨a ++ ',' :: b⟩ = (pyStrip ⟨a⟩, pyStrip ⟨b⟩)) ∧
    (∀ s : String, s ≠ "" → ',' ∉ s.data →
      parseFilterMeta s = (pyStrip s, "Not found")) ∧
    parseFilterMeta "" = ("", "Not found") := by
  refine ⟨fun a b ha => ?_, fun s hs hc => ?_, rfl⟩
  · have hne : (⟨a ++ ',' :: b⟩ : String) ≠ "" := by
      intro h
      have : a ++ ',' :: b = [] := congrArg String.data h
      simp at this
    simp only [parseFilterMeta, if_neg hne]
    rw [splitFirst_append ',' a b ha]
  · simp only [parseFilterMeta, if_neg hs]
    rw [splitFirst_no_sep ',' s.data hc]

/-- C8: the decision string is the "section: status" fragments of exactly the
entries with non-empty status and section, joined with ", " in input order,
and the sentinel "Not found" when no such entry exists. -/
theorem C8_decisionString (items : List DecItem) :
    decisionString items =
      if items.filter validDecItem = [] then "Not found"
      else String.intercalate ", " ((items.filter validDecItem).map decFragment) := by
  unfold decisionString
  rw [decisionsLoop_eq_filterMap]
  by_cases h : items.filter validDecItem = []
  · simp [h]
  · simp [h]

/-- C7 witness: the spec's own example, "5 December 2025, Education". -/
theorem C7_parseFilterMeta_witness :
    parseFilterMeta ⟨"5 December 2025".data ++ ',' :: " Education".data⟩
      = (pyStrip "5 December 2025", pyStrip " Education") :=
  C7_parseFilterMeta.1 "5 December 2025".data " Education".data (by decide)

/-- C3 counterexample: `raise_for_status` raises only for 4xx/5xx, so a 304
(non-2xx) response whose body decodes with a `results` entry is processed
normally and the function returns a non-empty list, contrary to the claim
that any non-2xx status yields the empty list. -/
theorem C3_counterexample :
    get_data_from_json_api
      (fun _ => .response 304 (some ⟨some [⟨none, none, none, none, none⟩]⟩)) 1
      = [⟨"Unknown Organisation", none, "Not found", "Not found", "", ""⟩] := by
  decide

/-- C3 (amended): for every page, a transport/network error, an HTTP error
status (4xx or 5xx, the statuses `raise_for_status` raises for), or a JSON
decode failure makes `get_data_from_json_api` return the empty list; the
embedding is a total function, so no exception reaches the caller. -/
theorem C3_api_errors_empty (api : Nat → ApiResult) (page_num : Nat) :
    (api page_num = .transportError → get_data_from_json_api api page_num = []) ∧
    (∀ status body, api page_num = .response status body →
      400 ≤ status → status ≤ 599 → get_data_from_json_api api page_num = []) ∧
    (∀ status, api page_num = .response status none →
      get_data_from_json_api api page_num = []) := by
  refine ⟨fun h => ?_, fun status body h h4 h5 => ?_, fun status h => ?_⟩
  · simp [get_data_from_json_api, h]
  · have hr : raisesForStatus status = true := by
      simp only [raisesForStatus, Bool.and_eq_true, decide_eq_true_eq]
      omega
    simp [get_data_from_json_api, h, hr]
  · simp only [get_data_from_json_api, h]
    split <;> rfl

/-- C3 witness: a transport error, a 500 response with a decodable non-empty
body, and a 200 response with an undecodable body all yield `[]`. -/
theorem C3_api_errors_empty_witness :
    get_data_from_json_api (fun _ => .transportError) 1 = [] ∧
    get_data_from_json_api
      (fun _ => .response 500 (some ⟨some [⟨none, none, none, none, none⟩]⟩)) 1 = [] ∧
    get_data_from_json_api (fun _ => .response 200 none) 1 = [] :=
  ⟨(C3_api_errors_empty (fun _ => .transportError) 1).1 rfl,
   (C3_api_errors_empty _ 1).2.1 500 _ rfl (by decide) (by decide),
   (C3_api_errors_empty _ 1).2.2 200 rfl⟩

/-- C6: every well-formed "D Month YYYY" string parses under the normalizer's
exact format and, reformatted with the code's `%Y-%m-%d`, denotes the same
calendar date; and the caught-`ValueError` embedding is total, with any
successful parse a valid calendar date (malformed strings yield `none`). -/
theorem C6_date_roundtrip :
    (∀ y m d, validDate y m d = true → 1000 ≤ y →
      strptime_dBY (renderDate d m y) = some ⟨y, m, d⟩ ∧
      formatISO ⟨y, m, d⟩ =
        (⟨year4Chars y ++ '-' :: pad2Chars m ++ '-' :: pad2Chars d⟩ : String)) ∧
    (∀ s : String, ∀ dt, parseDateField s = some dt →
      validDate dt.year dt.month dt.day = true) := by
  constructor
  · intro y m d hv hy1000
    have hv' := hv
    simp only [validDate, Bool.and_eq_true, decide_eq_true_eq] at hv'
    obtain ⟨⟨⟨⟨⟨h1y, h2y⟩, h1m⟩, h2m⟩, h1d⟩, h2d⟩ := hv'
    have hd31 : d ≤ 31 := le_trans h2d (daysInMonth_le y m)
    refine ⟨?_, rfl⟩
    obtain ⟨hmt, hm0, hmchars⟩ := monthOfTok_cap m (by omega) (by omega)
    rw [renderDate, strptime_tokens (dayChars d) (monthNameCap m).data (year4Chars y)
        (dayChars_digits d (by omega)) hmchars hm0
        (year4Chars_digits y (by omega)) rfl]
    rw [dayOfTok_dayChars d (by omega) (by omega), hmt]
    rw [natOfDigits_year4 y (by omega)]
    simp [hv]
  · intro s dt h
    unfold parseDateField at h
    split at h
    · exact absurd h (by simp)
    · exact strptime_sound _ _ h

/-- C6 witness: the spec's example date "5 December 2025" round-trips to
"2025-12-05". -/
theorem C6_date_roundtrip_witness :
    renderDate 5 12 2025 = "5 December 2025".data ∧
    strptime_dBY "5 December 2025".data = some ⟨2025, 12, 5⟩ ∧
    formatISO ⟨2025, 12, 5⟩ = "2025-12-05" := by
  refine ⟨by decide, ?_, by decide⟩
  have h := (C6_date_roundtrip.1 2025 12 5 (by decide) (by decide)).1
  rwa [show renderDate 5 12 2025 = "5 December 2025".data by decide] at h

/-- C4 counterexample: a record whose abstract contains a newline makes the
metadata file have more than six lines.  A six-line newline-terminated file
splits on newline into seven segments (the six lines plus one empty trailing
segment); this one splits into eight. -/
theorem C4_counterexample :
    (splitOnChar '\n'
      (metadataContent
        { organisation := "Org", date := none, sector := "S",
          decision := "D", abstract := "a\nb", url := "" } "Not found").data).length
      = 8 := by
  decide

/-- C4 (amended): when no field value contains a newline, the metadata file
consists of exactly six lines in the fixed order Organisation, Date, Sector,
Decision, Abstract, PDF URL, each line being its literal field-name prefix
followed by the value, with the date rendered as `YYYY-MM-DD` when present
and the literal "N/A" when absent (the `dateField` of the notice). -/
theorem C4_metadata_lines (n : Notice) (pdf_url : String)
    (h1 : '\n' ∉ n.organisation.data) (h2 : '\n' ∉ n.sector.data)
    (h3 : '\n' ∉ n.decision.data) (h4 : '\n' ∉ n.abstract.data)
    (h5 : '\n' ∉ pdf_url.data) :
    splitOnChar '\n' (metadataContent n pdf_url).data =
      [("Organisation: " ++ n.organisation).data,
       ("Date: " ++ dateField n.date).data,
       ("Sector: " ++ n.sector).data,
       ("Decision: " ++ n.decision).data,
       ("Abstract: " ++ n.abstract).data,
       ("PDF URL: " ++ pdf_url).data,
       []] := by
  have key : (metadataContent n pdf_url).data =
      ("Organisation: " ++ n.organisation).data ++ '\n' ::
      (("Date: " ++ dateField n.date).data ++ '\n' ::
      (("Sector: " ++ n.sector).data ++ '\n' ::
      (("Decision: " ++ n.decision).data ++ '\n' ::
      (("Abstract: " ++ n.abstract).data ++ '\n' ::
      (("PDF URL: " ++ pdf_url).data ++ '\n' :: []))))) := by
    simp [metadataContent, String.data_append, List.append_assoc]
  rw [key,
    splitOnChar_line '\n' _ _ (by
      rw [String.data_append]
      exact newline_not_mem_append _ _ (by decide) h1),
    splitOnChar_line '\n' _ _ (by
      rw [String.data_append]
      exact newline_not_mem_append _ _ (by decide) (newline_not_mem_dateField n.date)),
    splitOnChar_line '\n' _ _ (by
      rw [String.data_append]
      exact newline_not_mem_append _ _ (by decide) h2),
    splitOnChar_line '\n' _ _ (by
      rw [String.data_append]
      exact newline_not_mem_append _ _ (by decide) h3),
    splitOnChar_line '\n' _ _ (by
      rw [String.data_append]
      exact newline_not_mem_append _ _ (by decide) h4),
    splitOnChar_line '\n' _ _ (by
      rw [String.data_append]
      exact newline_not_mem_append _ _ (by decide) h5)]
  rfl

/-- C4 witness: a fully populated record. -/
theorem C4_metadata_lines_witness :
    splitOnChar '\n'
      (metadataContent
        { organisation := "Example Council", date := some ⟨2025, 12, 5⟩,
          sector := "Education", decision := "FOI 1: Upheld",
          abstract := "An abstract.", url := "/x" }
        "https://ico.org.uk/doc.pdf").data =
      [("Organisation: " ++ "Example Council").data,
       ("Date: " ++ dateField (some ⟨2025, 12, 5⟩)).data,
       ("Sector: " ++ "Education").data,
       ("Decision: " ++ "FOI 1: Upheld").data,
       ("Abstract: " ++ "An abstract.").data,
       ("PDF URL: " ++ "https://ico.org.uk/doc.pdf").data,
       []] :=
  C4_metadata_lines
    { organisation := "Example Council", date := some ⟨2025, 12, 5⟩,
      sector := "Education", decision := "FOI 1: Upheld",
      abstract := "An abstract.", url := "/x" }
    "https://ico.org.uk/doc.pdf"
    (by decide) (by decide) (by decide) (by decide) (by decide)

/-- C5: when the detail page has no "further-reading" tag, or the tag lacks
the "x-href" attribute, the extracted pair is exactly the sentinel
("Not found", "document.pdf"), and the case is persisted with no PDF download
attempt (the attempted-URL trace is empty). -/
theorem C5_no_tag_sentinel (env : DetailEnv) (case_counter : Nat)
    (notice : Notice) (fs : List (String × String)) (page : DetailPage)
    (hpage : env.page = .ok page)
    (h : page.furtherReading = none ∨
      ∃ tag, page.furtherReading = some tag ∧ tag.xhref = none) :
    fetchPdfLink page = ("Not found", "document.pdf") ∧
    scrape_detail_page env case_counter notice fs =
      .ok (fsWrite fs (caseDir case_counter ++ "/metadata.txt")
            (metadataContent notice "Not found"), []) := by
  have hf : fetchPdfLink page = ("Not found", "document.pdf") := by
    rcases h with h | ⟨tag, ht, hx⟩
    · simp [fetchPdfLink, h]
    · simp [fetchPdfLink, ht, hx]
  refine ⟨hf, ?_⟩
  simp [scrape_detail_page, hpage, hf]

/-- C5 witness: a page with a tag that lacks the attribute, and an untouched
filesystem. -/
theorem C5_no_tag_sentinel_witness :
    fetchPdfLink ⟨some ⟨none⟩⟩ = ("Not found", "document.pdf") ∧
    scrape_detail_page ⟨.ok ⟨some ⟨none⟩⟩, fun _ => .error ()⟩ 1
      ⟨"O", none, "S", "D", "A", "/u"⟩ [] =
      .ok (fsWrite [] (caseDir 1 ++ "/metadata.txt")
            (metadataContent ⟨"O", none, "S", "D", "A", "/u"⟩ "Not found"), []) :=
  C5_no_tag_sentinel ⟨.ok ⟨some ⟨none⟩⟩, fun _ => .error ()⟩ 1
    ⟨"O", none, "S", "D", "A", "/u"⟩ [] ⟨some ⟨none⟩⟩ rfl
    (Or.inr ⟨⟨none⟩, rfl, rfl⟩)

/-- C9: when the PDF URL is not the sentinel and the PDF GET raises a
transport error, `scrape_detail_page` still returns successfully (the
exception does not escape), the filesystem gains only the metadata file, and
that file holds exactly the content written before the download attempt. -/
theorem C9_pdf_failure_isolated (env : DetailEnv) (case_counter : Nat)
    (notice : Notice) (fs : List (String × String)) (page : DetailPage)
    (hpage : env.page = .ok page)
    (hurl : (fetchPdfLink page).1 ≠ "Not found")
    (hfail : env.pdfGet (fetchPdfLink page).1 = .error ()) :
    scrape_detail_page env case_counter notice fs =
      .ok (fsWrite fs (caseDir case_counter ++ "/metadata.txt")
            (metadataContent notice (fetchPdfLink page).1),
          [(fetchPdfLink page).1]) ∧
    fsGet (fsWrite fs (caseDir case_counter ++ "/metadata.txt")
            (metadataContent notice (fetchPdfLink page).1))
          (caseDir case_counter ++ "/metadata.txt")
      = some (metadataContent notice (fetchPdfLink page).1) := by
  refine ⟨?_, fsGet_fsWrite_self _ _ _⟩
  simp [scrape_detail_page, hpage, hurl, hfail]

/-- C9 witness: a concrete page with a PDF link and a failing PDF GET. -/
theorem C9_pdf_failure_isolated_witness :
    scrape_detail_page ⟨.ok ⟨some ⟨some "/docs/report.pdf"⟩⟩, fun _ => .error ()⟩ 2
      ⟨"O", none, "S", "D", "A", "/u"⟩ [] =
      .ok (fsWrite [] (caseDir 2 ++ "/metadata.txt")
            (metadataContent ⟨"O", none, "S", "D", "A", "/u"⟩
              (fetchPdfLink ⟨some ⟨some "/docs/report.pdf"⟩⟩).1),
          [(fetchPdfLink ⟨some ⟨some "/docs/report.pdf"⟩⟩).1]) ∧
    fsGet (fsWrite [] (caseDir 2 ++ "/metadata.txt")
            (metadataContent ⟨"O", none, "S", "D", "A", "/u"⟩
              (fetchPdfLink ⟨some ⟨some "/docs/report.pdf"⟩⟩).1))
          (caseDir 2 ++ "/metadata.txt")
      = some (metadataContent ⟨"O", none, "S", "D", "A", "/u"⟩
              (fetchPdfLink ⟨some ⟨some "/docs/report.pdf"⟩⟩).1) :=
  C9_pdf_failure_isolated ⟨.ok ⟨some ⟨some "/docs/report.pdf"⟩⟩, fun _ => .error ()⟩ 2
    ⟨"O", none, "S", "D", "A", "/u"⟩ [] ⟨some ⟨some "/docs/report.pdf"⟩⟩
    rfl (by decide) rfl

/-- C10: a present "further-reading" tag whose "x-href" attribute is the
empty string does not yield the sentinel: the PDF URL becomes the base
origin itself (`urljoin BASE_URL "" = BASE_URL`), the filename stays
"document.pdf", and a download of the base origin is attempted — its body,
when the GET succeeds, saved as document.pdf in the case directory; a failing
GET is caught. -/
theorem C10_empty_xhref (env : DetailEnv) (case_counter : Nat)
    (notice : Notice) (fs : List (String × String)) (page : DetailPage)
    (tag : FRTag)
    (hpage : env.page = .ok page)
    (hfr : page.furtherReading = some tag)
    (hx : tag.xhref = some "") :
    urljoin BASE_URL "" = BASE_URL ∧
    fetchPdfLink page = (BASE_URL, "document.pdf") ∧
    (∀ body, env.pdfGet BASE_URL = .ok body →
      scrape_detail_page env case_counter notice fs =
        .ok (fsWrite
              (fsWrite fs (caseDir case_counter ++ "/metadata.txt")
                (metadataContent notice BASE_URL))
              (caseDir case_counter ++ "/" ++ "document.pdf") body,
            [BASE_URL])) ∧
    (env.pdfGet BASE_URL = .error () →
      scrape_detail_page env case_counter notice fs =
        .ok (fsWrite fs (caseDir case_counter ++ "/metadata.txt")
              (metadataContent notice BASE_URL),
            [BASE_URL])) := by
  have hf : fetchPdfLink page = (BASE_URL, "document.pdf") := by
    simp [fetchPdfLink, hfr, hx, urljoin]
  have hne : BASE_URL ≠ "Not found" := by decide
  refine ⟨rfl, hf, fun body hok => ?_, fun hfail => ?_⟩
  · simp [scrape_detail_page, hpage, hf, hok, hne]
  · simp [scrape_detail_page, hpage, hf, hfail, hne]

/-- C10 witness: an empty `x-href` with a succeeding download. -/
theorem C10_empty_xhref_witness :
    fetchPdfLink ⟨some ⟨some ""⟩⟩ = (BASE_URL, "document.pdf") ∧
    scrape_detail_page ⟨.ok ⟨some ⟨some ""⟩⟩, fun _ => .ok "PDFBYTES"⟩ 3
      ⟨"O", none, "S", "D", "A", "/u"⟩ [] =
      .ok (fsWrite
            (fsWrite [] (caseDir 3 ++ "/metadata.txt")
              (metadataContent ⟨"O", none, "S", "D", "A", "/u"⟩ BASE_URL))
            (caseDir 3 ++ "/" ++ "document.pdf") "PDFBYTES",
          [BASE_URL]) :=
  ⟨(C10_empty_xhref ⟨.ok ⟨some ⟨some ""⟩⟩, fun _ => .ok "PDFBYTES"⟩ 3
      ⟨"O", none, "S", "D", "A", "/u"⟩ [] ⟨some ⟨some ""⟩⟩ ⟨some ""⟩
      rfl rfl rfl).2.1,
   (C10_empty_xhref ⟨.ok ⟨some ⟨some ""⟩⟩, fun _ => .ok "PDFBYTES"⟩ 3
      ⟨"O", none, "S", "D", "A", "/u"⟩ [] ⟨some ⟨some ""⟩⟩ ⟨some ""⟩
      rfl rfl rfl).2.2.1 "PDFBYTES" rfl⟩

/-- C1: the case counter starts at 1 and is incremented exactly once per
record whose detail step completes without an exception; the sequence of
case numbers assigned to successful records, in encounter order, is exactly
1, 2, ..., n with no gaps (so the k-th successful record is processed — and
persisted — under case-k, whose metadata file is on disk at the end of the
run), and the final counter is 1 + n. -/
theorem C1_case_numbering (env : WorldEnv) (startPage totalPages : Nat) :
    ((scrape_all_notices env startPage totalPages).successes.map Prod.fst =
      List.range' 1
        (scrape_all_notices env startPage totalPages).successes.length) ∧
    ((scrape_all_notices env startPage totalPages).counter =
      1 + (scrape_all_notices env startPage totalPages).successes.length) ∧
    (∀ kn ∈ (scrape_all_notices env startPage totalPages).successes,
      fsGet (scrape_all_notices env startPage totalPages).fs
        (caseDir kn.1 ++ "/metadata.txt") ≠ none) := by
  obtain ⟨Δ, h1, h2, h3, h4⟩ := pageLoop_spec env startPage
    (pageRange startPage totalPages) ⟨[], 1, [], []⟩
  have hrun : scrape_all_notices env startPage totalPages =
      pageLoop env startPage ⟨[], 1, [], []⟩ (pageRange startPage totalPages) := rfl
  rw [hrun]
  have hs : (pageLoop env startPage ⟨[], 1, [], []⟩
      (pageRange startPage totalPages)).successes = Δ := by
    simpa using h1
  refine ⟨?_, ?_, ?_⟩
  · rw [hs]
    simpa using h3
  · rw [hs]
    simpa using h2
  · intro kn hkn
    have hinit : casesOnDisk (⟨[], 1, [], []⟩ : RunState) := by
      intro kn h
      exact absurd h (List.not_mem_nil kn)
    exact h4 hinit kn hkn

/-- C1 witness: in `demoEnv`, one record succeeds: the case numbers are
`[1]`, the counter ends at 2, and case-1's metadata file is on disk. -/
theorem C1_case_numbering_witness :
    (scrape_all_notices demoEnv 1 1).successes.map Prod.fst =
      List.range' 1 (scrape_all_notices demoEnv 1 1).successes.length ∧
    (scrape_all_notices demoEnv 1 1).counter =
      1 + (scrape_all_notices demoEnv 1 1).successes.length ∧
    fsGet (scrape_all_notices demoEnv 1 1).fs
      (caseDir 1 ++ "/metadata.txt") ≠ none := by
  have h := C1_case_numbering demoEnv 1 1
  refine ⟨h.1, h.2.1, ?_⟩
  have hmem : ((1 : Nat),
      (⟨"Org A", some ⟨2025, 12, 5⟩, "Education", "Not found", "Abs",
        "/case-a"⟩ : Notice)) ∈
      (scrape_all_notices demoEnv 1 1).successes := by decide
  exact h.2.2 _ hmem

/-- C2: when the search client returns an empty list for the configured
start page, the orchestrator still queries the next page index; when it
returns an empty list for any page strictly beyond the start page, no later
page is ever queried. -/
theorem C2_empty_page_policy (env : WorldEnv) (startPage totalPages : Nat) :
    (get_data_from_json_api env.api startPage = [] → startPage < totalPages →
      startPage + 1 ∈
        (scrape_all_notices env startPage totalPages).queriedPages) ∧
    (∀ p, startPage < p → get_data_from_json_api env.api p = [] →
      ∀ q, p < q →
        q ∉ (scrape_all_notices env startPage totalPages).queriedPages) := by
  constructor
  · intro hempty hlt
    unfold scrape_all_notices pageRange
    have hlen : totalPages + 1 - startPage =
        (totalPages - startPage - 1) + 1 + 1 := by omega
    rw [hlen, List.range'_succ]
    simp only [pageLoop]
    rw [if_pos hempty, if_neg (by omega : ¬startPage > startPage)]
    split
    · split
      · simp
      · exact mem_pageLoop_queried _ _ _ _ _ (by simp)
    · exact mem_pageLoop_queried _ _ _ _ _ (by rw [processPage_queried]; simp)
  · intro p hp hempty q hq
    unfold scrape_all_notices pageRange
    exact pageLoop_stops env startPage p hp hempty _ startPage ⟨[], 1, [], []⟩
      (by omega) (by intro r _ hr; exact absurd hr (List.not_mem_nil r)) q hq

/-- C2 witness: with an everywhere-empty API and pages 1..2, page 2 is still
queried after the empty start page, and page 3 is never queried after the
empty page 2. -/
theorem C2_empty_page_policy_witness :
    2 ∈ (scrape_all_notices emptyEnv 1 2).queriedPages ∧
    3 ∉ (scrape_all_notices emptyEnv 1 2).queriedPages := by
  have h := C2_empty_page_policy emptyEnv 1 2
  exact ⟨h.1 (by decide) (by decide), h.2 2 (by decide) (by decide) 3 (by decide)⟩

end Scraper
